import Mathlib

/-!
# Verification of `app-review-monitor` (`src/app_review_monitor/core.py`, `utils.py`)

Shallow embedding of the review deduplication and delivery pipeline:

* `get_recent_reviews` — fetch + normalize + date-window filter
  (`core.py` lines 134–215).  The ambient world (credential presence, the
  HTTP response of `make_api_request`, the current time, and the behaviour
  of Python's `datetime.fromisoformat`) is passed as explicit parameters.
* `load_processed_reviews` / `save_processed_reviews` — the seen-set store
  (`core.py` lines 221–257).  The state file is modelled by `FileState`.
* `process_reviews` — the dedup pipeline (`core.py` lines 312–357).
  Besides its result it returns the trace of store operations performed and
  the resulting file state.
* `send_slack_notification` / the message formatting inside it
  (`core.py` lines 259–310), and `truncate_string` (`utils.py` lines 35–49).

Exceptions are modelled with `Except`; Python `datetime` values are Unix
timestamps (`Int`); `datetime.fromisoformat ∘ (replace 'Z' '+00:00')` is an
abstract parameter `parseIso : String → Option Int` (`none` = the library
call raises `ValueError`).  Python's unordered `set` of review ids is
modelled as an insertion-ordered `List String` with the same membership
semantics; every property proved about the persisted id list is
order-insensitive, so the difference from CPython's hash order is
irrelevant.
-/

set_option autoImplicit false

namespace AppReviewMonitor

instance {ε α : Type} [DecidableEq ε] [DecidableEq α] :
    DecidableEq (Except ε α) := fun x y =>
  match x, y with
  | .ok a, .ok b =>
      if h : a = b then .isTrue (by rw [h])
      else .isFalse (by intro hc; cases hc; exact h rfl)
  | .error a, .error b =>
      if h : a = b then .isTrue (by rw [h])
      else .isFalse (by intro hc; cases hc; exact h rfl)
  | .ok _, .error _ => .isFalse (by intro hc; cases hc)
  | .error _, .ok _ => .isFalse (by intro hc; cases hc)

/-- Exception `APIError` from `exceptions.py` (carrying its message). -/
structure APIError where
  msg : String
  deriving Repr, DecidableEq

/-- Exception `SlackError` from `exceptions.py` (carrying its message). -/
structure SlackError where
  msg : String
  deriving Repr, DecidableEq

/-- Python `IOError`/`OSError` raised by file operations. -/
structure IOError where
  msg : String
  deriving Repr, DecidableEq

/-- The normalized review dictionary built in `get_recent_reviews`
(`core.py` lines 186–194): keys `id`, `rating`, `title`, `body`, `author`,
`territory`, `date`. -/
structure Review where
  id : String
  rating : Int
  title : String
  body : String
  author : String
  territory : String
  date : String
  deriving Repr, DecidableEq

/-- The `attributes` object of one element of the API response's `data`
array.  Each field is optional: `none` models an absent key, so that the
`attrs.get(key, default)` calls of `core.py` lines 187–193 are `Option.getD`. -/
structure RawAttrs where
  rating : Option Int
  title : Option String
  body : Option String
  reviewerNickname : Option String
  territory : Option String
  createdDate : Option String
  deriving Repr, DecidableEq

/-- One element of the response's `data` array: `id` (absent key modelled by
`none`, defaulted to `""` by `item.get('id', '')`) and the optional
`attributes` object (items without one are skipped, `core.py` line 184). -/
structure RawItem where
  id : Option String
  attributes : Option RawAttrs
  deriving Repr, DecidableEq

/-- The value `make_api_request` hands back to `get_recent_reviews`
(`core.py` lines 175–197):
* `failed` — `make_api_request` returned `None` (or a falsy value), so
  `if not response` raises `APIError("Failed to fetch …")`;
* `noData` — a truthy response that is not a dict with a `'data'` key, so
  the `isinstance`/`'data' in response` check raises
  `APIError("Invalid response format …")`;
* `ok data` — a dict with a `'data'` list. -/
inductive ApiResponse where
  | failed
  | noData
  | ok (data : List RawItem)
  deriving Repr, DecidableEq

/-- Normalization of one `data` item (`core.py` lines 183–195): items with
no `attributes` key are skipped (`none`); otherwise each missing field gets
the literal default of the corresponding `.get` call. -/
def normalize_item (item : RawItem) : Option Review :=
  match item.attributes with
  | none => none
  | some attrs =>
      some { id := item.id.getD ""
             rating := attrs.rating.getD 0
             title := attrs.title.getD "No title"
             body := attrs.body.getD "No review text"
             author := attrs.reviewerNickname.getD "Anonymous"
             territory := attrs.territory.getD "Unknown"
             date := attrs.createdDate.getD "" }

/-- The date-window test of `core.py` lines 201–207: parse `review['date']`
with `datetime.fromisoformat` (after the `Z` replacement, all folded into
`parseIso`); on success keep the review iff
`start_date <= created_date <= end_date`, on `ValueError` drop it. -/
def in_window (parseIso : String → Option Int) (start_date end_date : Int)
    (r : Review) : Bool :=
  match parseIso r.date with
  | some t => decide (start_date ≤ t) && decide (t ≤ end_date)
  | none => false

/-- Function `get_recent_reviews(app_id, days)` (`core.py` lines 134–215).

`now` is `datetime.now(pytz.UTC)` as a Unix timestamp, so
`start_date = now - days·86400` (`timedelta(days=days)`); `creds` is
whether `all([key_id, private_key, issuer_id])` holds; `resp` is the value
returned by `make_api_request`.  The function raises `APIError` exactly as
the source does and otherwise returns the normalized, date-filtered list. -/
def get_recent_reviews (parseIso : String → Option Int) (now days : Int)
    (creds : Bool) (resp : ApiResponse) : Except APIError (List Review) :=
  let end_date := now
  let start_date := now - days * 86400
  if ¬ creds then
    .error ⟨"Missing required API credentials"⟩
  else
    match resp with
    | .failed => .error ⟨"Failed to fetch reviews from App Store Connect API"⟩
    | .noData => .error ⟨"Invalid response format from App Store Connect API"⟩
    | .ok data =>
        let reviews := data.filterMap normalize_item
        .ok (reviews.filter (in_window parseIso start_date end_date))

/-- The contents of `processed_reviews.json` as seen by the store:
* `missing` — `os.path.exists` is false;
* `unreadable` — the file exists but `open`/read raises an `OSError`
  (e.g. permission denied), which `load_processed_reviews` does not catch;
* `corrupt` — the file is readable but `json.load` raises
  `json.JSONDecodeError`;
* `valid ids lastRun` — a well-typed JSON object
  `{"review_ids": ids, "last_run": lastRun}`. -/
inductive FileState where
  | missing
  | unreadable
  | corrupt
  | valid (review_ids : List String) (last_run : Option String)
  deriving Repr, DecidableEq

/-- The dictionary returned by `load_processed_reviews`. -/
structure SeenData where
  review_ids : List String
  last_run : Option String
  deriving Repr, DecidableEq

/-- Function `load_processed_reviews()` (`core.py` lines 221–235).  Missing file →
fresh dict; `json.JSONDecodeError` → logged, fresh dict; but an `OSError`
from `open`/read is not caught and propagates. -/
def load_processed_reviews (file : FileState) : Except IOError SeenData :=
  match file with
  | .missing => .ok ⟨[], none⟩
  | .unreadable => .error ⟨"could not read processed reviews file"⟩
  | .corrupt => .ok ⟨[], none⟩
  | .valid ids lastRun => .ok ⟨ids, lastRun⟩

/-- Function `save_processed_reviews(review_ids, last_run)` (`core.py` lines
237–257): writes `{"review_ids": review_ids, "last_run": last_run}`;
an `IOError` is logged and re-raised.  `ok` is whether the write succeeds.
A failed write's on-disk contents are unspecified (the `'w'` open may have
truncated the file); we model them as `corrupt`, and no theorem below
depends on the file state of this branch. -/
def save_processed_reviews (ok : Bool) (review_ids : List String)
    (last_run : String) (_file : FileState) : Except IOError FileState :=
  if ok then .ok (.valid review_ids (some last_run))
  else .error ⟨"Error saving processed reviews"⟩

/-- A store operation performed by `process_reviews`, in order. -/
inductive StoreOp where
  | load
  | save (review_ids : List String) (last_run : String)
  deriving Repr, DecidableEq

/-- The `for review in reviews` loop of `core.py` lines 337–344: walk the
fetched reviews, keep those whose id is not in the (mutating) seen set, and
add each kept id to the set at once.  Returns the kept reviews (in fetch
order) together with the final id set. -/
def filter_new : List Review → List String → List Review × List String
  | [], seen => ([], seen)
  | r :: rs, seen =>
      if r.id ∈ seen then
        filter_new rs seen
      else
        let rest := filter_new rs (seen ++ [r.id])
        (r :: rest.1, rest.2)

/-- Function `process_reviews(app_id, days)` (`core.py` lines 312–357).

The fetch stage is the embedded `get_recent_reviews` with its world
parameters; `file` is the state file read by `load_processed_reviews`;
`saveOk` is whether the `save_processed_reviews` write succeeds; `nowIso`
is `datetime.now().isoformat()` at the save site.

Faithful to the source, the whole body sits in a
`try: … except Exception: return []` — so a fetch failure, a load failure
or a save failure is swallowed and the function returns `[]` instead of
re-raising.  The result is the returned list, the trace of store
operations attempted, and the resulting file state. -/
def process_reviews (parseIso : String → Option Int) (now days : Int)
    (creds : Bool) (resp : ApiResponse) (file : FileState) (saveOk : Bool)
    (nowIso : String) : List Review × List StoreOp × FileState :=
  match get_recent_reviews parseIso now days creds resp with
  | .error _ => ([], [], file)
  | .ok reviews =>
      if reviews = [] then ([], [], file)
      else
        match load_processed_reviews file with
        | .error _ => ([], [.load], file)
        | .ok data =>
            let res := filter_new reviews data.review_ids
            let new_reviews := res.1
            if new_reviews = [] then (new_reviews, [.load], file)
            else
              match save_processed_reviews saveOk res.2 nowIso file with
              | .ok file' => (new_reviews, [.load, .save res.2 nowIso], file')
              | .error _ => ([], [.load, .save res.2 nowIso], .corrupt)

/-- The star string `"⭐" * review.get("rating", 0)` of `core.py` line 278
(Python string repetition is empty for a non-positive count). -/
def star_string (rating : Int) : String :=
  String.join (List.replicate rating.toNat "⭐")

/-- The message text built for one review in `send_slack_notification`
(`core.py` lines 279–287).  The normalized `Review` record always carries
every key, so the `review.get(key, default)` calls are plain field reads. -/
def format_slack_text (r : Review) : String :=
  "*New App Store Review*\n" ++
  "Rating: " ++ star_string r.rating ++ "\n" ++
  "Title: " ++ r.title ++ "\n" ++
  "Review: " ++ r.body ++ "\n" ++
  "Reviewer: " ++ r.author ++ "\n" ++
  "Territory: " ++ r.territory ++ "\n" ++
  "Date: " ++ r.date

/-- Result of one `send_slack_notification` call: the payload texts passed
to `requests.post`, in call order, and the overall outcome. -/
structure SlackRun where
  posted : List String
  result : Except SlackError Unit
  deriving Repr

/-- The `for review in reviews` loop of `core.py` lines 276–305, starting
at post call number `i`.  `postOk i` is whether the `i`-th `requests.post`
of the run returns status 200.  On a non-200 response the loop raises
`SlackError` immediately (the source interpolates the response body into
the message; the response body is ambient HTTP data, so the model keeps the
fixed prefix). -/
def send_loop (postOk : Nat → Bool) (i : Nat) : List Review → SlackRun
  | [] => ⟨[], .ok ()⟩
  | r :: rs =>
      if postOk i then
        ⟨format_slack_text r :: (send_loop postOk (i + 1) rs).posted,
          (send_loop postOk (i + 1) rs).result⟩
      else
        ⟨[format_slack_text r], .error ⟨"Failed to send notification"⟩⟩

/-- Function `send_slack_notification(webhook_url, reviews, channel)` (`core.py`
lines 259–310): empty input returns without any network call; otherwise
posts one message per review and raises `SlackError` at the first failed
post, abandoning the rest of the loop. -/
def send_slack_notification (postOk : Nat → Bool) (reviews : List Review) :
    SlackRun :=
  if reviews = [] then ⟨[], .ok ()⟩
  else send_loop postOk 0 reviews

/-- Whether a store operation is a write. -/
def StoreOp.isSave : StoreOp → Bool
  | .save _ _ => true
  | _ => false

/-- Function `truncate_string(text, max_length=100)` (`utils.py` lines 35–49).
Python's falsiness test `if not text` on a string is emptiness, and
`text[:max_length-3]` is `List.take` for `max_length ≥ 3` (the only way it
is called).  Present in the repository but never called by
`send_slack_notification`. -/
def truncate_string (text : String) (max_length : Nat := 100) : String :=
  if text = "" then ""
  else if text.length ≤ max_length then text
  else String.mk (text.data.take (max_length - 3)) ++ "..."

/-- The id list stored in the state file (empty for a file that is not a
well-typed JSON object). -/
def FileState.storedIds : FileState → List String
  | .valid ids _ => ids
  | _ => []

/-! ## Concrete fixtures used to evaluate the embedded code -/

/-- A date-parse function for concrete runs: the one string `"d0"` parses
to timestamp 50, everything else raises `ValueError`. -/
def pIso0 : String → Option Int := fun s => if s = "d0" then some 50 else none

/-- A fully populated API response item with id `"rev1"`. -/
def item0 : RawItem :=
  { id := some "rev1"
    attributes := some
      { rating := some 5, title := some "T", body := some "B"
        reviewerNickname := some "A", territory := some "US"
        createdDate := some "d0" } }

/-- The normalized review produced from `item0`. -/
def review0 : Review :=
  { id := "rev1", rating := 5, title := "T", body := "B", author := "A"
    territory := "US", date := "d0" }

/-- A second review, same fields but id `"rev2"` and body `"B2"`. -/
def review2 : Review := { review0 with id := "rev2", body := "B2" }

/-- A third review, id `"rev3"` and body `"B3"`. -/
def review3 : Review := { review0 with id := "rev3", body := "B3" }

/-- Post outcomes where exactly the second `requests.post` (index 1) fails. -/
def postOkExceptSecond : Nat → Bool := fun i => decide (i ≠ 1)

/-- A 5000-character review body. -/
def longBody : String := String.mk (List.replicate 5000 'a')

/-- The review `review0` with the 5000-character body. -/
def reviewLong : Review := { review0 with body := longBody }

/-! ## Properties of the dedup loop `filter_new` -/

theorem filter_new_snd_mem (R : List Review) :
    ∀ (seen : List String) (x : String),
      x ∈ (filter_new R seen).2 ↔
        x ∈ seen ∨ ∃ r ∈ (filter_new R seen).1, r.id = x := by
  induction R with
  | nil => intro seen x; simp [filter_new]
  | cons r rs ih =>
      intro seen x
      by_cases h : r.id ∈ seen
      · simpa only [filter_new, if_pos h] using ih seen x
      · simp only [filter_new, if_neg h]
        rw [ih (seen ++ [r.id]) x]
        constructor
        · rintro (hmem | ⟨r', hr', hid⟩)
          · rcases List.mem_append.mp hmem with hx | hx
            · exact Or.inl hx
            · exact Or.inr ⟨r, List.mem_cons_self r _,
                (List.mem_singleton.mp hx).symm⟩
          · exact Or.inr ⟨r', List.mem_cons_of_mem r hr', hid⟩
        · rintro (hx | ⟨r', hr', hid⟩)
          · exact Or.inl (List.mem_append_left _ hx)
          · rcases List.mem_cons.mp hr' with h1 | h1
            · refine Or.inl (List.mem_append_right _ ?_)
              rw [← hid, h1]
              exact List.mem_singleton.mpr rfl
            · exact Or.inr ⟨r', h1, hid⟩

theorem filter_new_fst_id_not_mem (R : List Review) :
    ∀ (seen : List String) (r' : Review),
      r' ∈ (filter_new R seen).1 → r'.id ∉ seen := by
  induction R with
  | nil => intro seen r' hr'; simp [filter_new] at hr'
  | cons r rs ih =>
      intro seen r' hr'
      by_cases h : r.id ∈ seen
      · rw [filter_new, if_pos h] at hr'
        exact ih seen r' hr'
      · rw [filter_new, if_neg h] at hr'
        rcases List.mem_cons.mp hr' with h1 | h1
        · exact h1 ▸ h
        · intro hmem
          exact ih (seen ++ [r.id]) r' h1 (List.mem_append_left _ hmem)

theorem filter_new_fst_nodup (R : List Review) :
    ∀ seen : List String, ((filter_new R seen).1.map Review.id).Nodup := by
  induction R with
  | nil => intro seen; simp [filter_new]
  | cons r rs ih =>
      intro seen
      by_cases h : r.id ∈ seen
      · simpa only [filter_new, if_pos h] using ih seen
      · simp only [filter_new, if_neg h, List.map_cons, List.nodup_cons]
        refine ⟨?_, ih (seen ++ [r.id])⟩
        intro hmem
        rcases List.mem_map.mp hmem with ⟨r', hr', hid⟩
        exact filter_new_fst_id_not_mem rs (seen ++ [r.id]) r' hr'
          (List.mem_append_right _ (hid ▸ List.mem_singleton.mpr rfl))

theorem filter_new_fst_sublist (R : List Review) :
    ∀ seen : List String, List.Sublist (filter_new R seen).1 R := by
  induction R with
  | nil => intro seen; simp [filter_new]
  | cons r rs ih =>
      intro seen
      by_cases h : r.id ∈ seen
      · rw [filter_new, if_pos h]
        exact (ih seen).cons r
      · rw [filter_new, if_neg h]
        exact (ih (seen ++ [r.id])).cons₂ r

theorem filter_new_first_occurrence (R : List Review) :
    ∀ (seen : List String), ∀ r' ∈ (filter_new R seen).1,
      ∃ pre post, R = pre ++ r' :: post ∧ ∀ p ∈ pre, p.id ≠ r'.id := by
  induction R with
  | nil => intro seen r' hr'; simp [filter_new] at hr'
  | cons r rs ih =>
      intro seen r' hr'
      by_cases h : r.id ∈ seen
      · rw [filter_new, if_pos h] at hr'
        obtain ⟨pre, post, heq, hpre⟩ := ih seen r' hr'
        refine ⟨r :: pre, post, by rw [heq, List.cons_append], ?_⟩
        intro p hp
        rcases List.mem_cons.mp hp with rfl | hp
        · intro hcontra
          exact filter_new_fst_id_not_mem rs seen r' hr' (hcontra ▸ h)
        · exact hpre p hp
      · rw [filter_new, if_neg h] at hr'
        rcases List.mem_cons.mp hr' with h1 | h1
        · exact ⟨[], rs, by rw [h1, List.nil_append], by simp⟩
        · obtain ⟨pre, post, heq, hpre⟩ := ih (seen ++ [r.id]) r' h1
          refine ⟨r :: pre, post, by rw [heq, List.cons_append], ?_⟩
          intro p hp
          rcases List.mem_cons.mp hp with hpe | hp
          · intro hcontra
            rw [hpe] at hcontra
            refine filter_new_fst_id_not_mem rs (seen ++ [r.id]) r' h1 ?_
            refine List.mem_append_right _ ?_
            rw [← hcontra]
            exact List.mem_singleton.mpr rfl
          · exact hpre p hp

theorem filter_new_fst_of_nodup (R : List Review) :
    ∀ seen : List String, (R.map Review.id).Nodup →
      (filter_new R seen).1 = R.filter (fun r => decide (¬ r.id ∈ seen)) := by
  induction R with
  | nil => intro seen _; simp [filter_new]
  | cons r rs ih =>
      intro seen hnodup
      rw [List.map_cons, List.nodup_cons] at hnodup
      by_cases h : r.id ∈ seen
      · rw [filter_new, if_pos h, List.filter_cons_of_neg (by simpa using h)]
        exact ih seen hnodup.2
      · rw [filter_new, if_neg h, List.filter_cons_of_pos (by simpa using h)]
        refine congrArg (r :: ·) ?_
        rw [ih (seen ++ [r.id]) hnodup.2]
        refine List.filter_congr ?_
        intro x hx
        have hne : x.id ≠ r.id := by
          intro hcontra
          exact hnodup.1 (hcontra ▸ List.mem_map_of_mem Review.id hx)
        simp [List.mem_append, hne]

/-! ## Theorems -/

/-- C1: when the fetch stage fails (`get_recent_reviews` raises
`APIError`), `process_reviews` performs no store load, no store write and
no delivery attempt — but, contrary to the claim (and to
`tests/test_app.py::test_complete_workflow_api_error`, which expects the
exception to re-raise), the blanket `except Exception` swallows the error
and the function RETURNS `[]` instead of raising. -/
theorem process_reviews_fetch_error_swallowed
    (parseIso : String → Option Int) (now days : Int) (creds : Bool)
    (resp : ApiResponse) (file : FileState) (saveOk : Bool) (nowIso : String)
    (h : ∃ e, get_recent_reviews parseIso now days creds resp = Except.error e) :
    process_reviews parseIso now days creds resp file saveOk nowIso
      = ([], [], file) := by
  obtain ⟨e, he⟩ := h
  unfold process_reviews
  rw [he]

/-- Witness for C1: a run with missing credentials makes the fetch stage
fail, and `process_reviews` returns `([], no store ops, unchanged file)`. -/
theorem process_reviews_fetch_error_swallowed_witness :
    process_reviews pIso0 100 1 false ApiResponse.failed FileState.missing
        true "t" = ([], [], FileState.missing) :=
  process_reviews_fetch_error_swallowed pIso0 100 1 false .failed .missing
    true "t" ⟨⟨"Missing required API credentials"⟩, rfl⟩

/-- C2: a successful fetch finds the one new review `review0`, the save of
the updated seen set fails, and — contrary to the claim and to the spec
(§4.3 step 5, §7), which say the computed new reviews are still returned —
the blanket `except Exception` of `process_reviews` swallows the `IOError`
re-raised by `save_processed_reviews` and returns `[]`, dropping the newly
seen review.  The trace shows the write of `["rev1"]` was attempted. -/
theorem process_reviews_save_error_drops_new_reviews :
    process_reviews pIso0 100 1 true (ApiResponse.ok [item0])
        (FileState.valid [] none) false "t"
      = ([], [StoreOp.load, StoreOp.save ["rev1"] "t"], FileState.corrupt) := by
  decide

/-- C6 counterexample: `load_processed_reviews` catches only
`json.JSONDecodeError`, so on a file that exists but cannot be read (an
`OSError` from `open`/read) it raises — refuting "load never raises". -/
theorem load_processed_reviews_unreadable_raises :
    load_processed_reviews FileState.unreadable
      = Except.error ⟨"could not read processed reviews file"⟩ := rfl

/-- C6 amended: on a missing file `load_processed_reviews` returns the
empty seen set, on an unparsable (corrupt JSON) file it logs and returns
the empty seen set, and on a well-typed file it returns its contents — but
an I/O error while opening or reading the file propagates to the caller. -/
theorem load_processed_reviews_amended (ids : List String)
    (lr : Option String) :
    load_processed_reviews FileState.missing = Except.ok ⟨[], none⟩
    ∧ load_processed_reviews FileState.corrupt = Except.ok ⟨[], none⟩
    ∧ load_processed_reviews (FileState.valid ids lr) = Except.ok ⟨ids, lr⟩
    ∧ ∃ e, load_processed_reviews FileState.unreadable = Except.error e :=
  ⟨rfl, rfl, rfl, ⟨_, rfl⟩⟩

/-- C3 counterexample: the claim fails when the fetched sequence repeats a
previously-unseen id.  Fetching `[item0, item0]` yields
`R = [review0, review0]`, whose ids are all outside the prior seen set
`S = []` — so the claim demands that both copies be returned — but
`process_reviews` returns only the first occurrence `[review0]`. -/
theorem process_reviews_duplicate_ids_counterexample :
    get_recent_reviews pIso0 100 1 true (ApiResponse.ok [item0, item0])
      = Except.ok [review0, review0]
    ∧ (process_reviews pIso0 100 1 true (ApiResponse.ok [item0, item0])
        (FileState.valid [] none) true "t").1 = [review0]
    ∧ [review0, review0].filter
        (fun r => decide (¬ r.id ∈ ([] : List String))) = [review0, review0]
    ∧ [review0] ≠ [review0, review0] := by decide

/-- C3 amended: for every fetched sequence `R` whose ids are pairwise
distinct, a successful `process_reviews` run (fetch succeeded, save
succeeded) returns exactly the reviews of `R` whose ids are not in the
prior seen set `S`, in fetch order, and afterwards the persisted id set
equals `S` union the ids of the returned reviews. -/
theorem process_reviews_dedup_amended
    (parseIso : String → Option Int) (now days : Int) (creds : Bool)
    (resp : ApiResponse) (R : List Review) (S : List String)
    (lr : Option String) (nowIso : String)
    (hfetch : get_recent_reviews parseIso now days creds resp = Except.ok R)
    (hnodup : (R.map Review.id).Nodup) :
    (process_reviews parseIso now days creds resp (FileState.valid S lr)
        true nowIso).1 = R.filter (fun r => decide (¬ r.id ∈ S))
    ∧ ∀ x, x ∈ ((process_reviews parseIso now days creds resp
          (FileState.valid S lr) true nowIso).2.2).storedIds ↔
        x ∈ S ∨ ∃ r ∈ (process_reviews parseIso now days creds resp
          (FileState.valid S lr) true nowIso).1, r.id = x := by
  have hfil := filter_new_fst_of_nodup R S hnodup
  simp only [process_reviews, hfetch, load_processed_reviews]
  by_cases hR : R = []
  · subst hR
    simp [filter_new, FileState.storedIds]
  · rw [if_neg hR]
    by_cases hnew : (filter_new R S).1 = []
    · rw [if_pos hnew]
      constructor
      · rw [hnew, ← hfil, hnew]
      · intro x
        simp only [FileState.storedIds, hnew]
        simp
    · rw [if_neg hnew]
      simp only [save_processed_reviews, if_pos rfl]
      constructor
      · exact hfil
      · intro x
        simp only [FileState.storedIds]
        exact filter_new_snd_mem R S x

/-- Witness for C3 (amended): with prior seen set `["old"]` and the single
fetched review `review0`, the run returns `[review0]` and persists
`["old", "rev1"]`. -/
theorem process_reviews_dedup_amended_witness :
    (process_reviews pIso0 100 1 true (ApiResponse.ok [item0])
        (FileState.valid ["old"] none) true "t").1
      = [review0].filter (fun r => decide (¬ r.id ∈ ["old"]))
    ∧ ∀ x, x ∈ ((process_reviews pIso0 100 1 true (ApiResponse.ok [item0])
          (FileState.valid ["old"] none) true "t").2.2).storedIds ↔
        x ∈ ["old"] ∨ ∃ r ∈ (process_reviews pIso0 100 1 true
          (ApiResponse.ok [item0]) (FileState.valid ["old"] none) true "t").1,
          r.id = x :=
  process_reviews_dedup_amended pIso0 100 1 true (ApiResponse.ok [item0])
    [review0] ["old"] none "t" (by decide) (by decide)

/-- C7: in every run the store is written at most once; a save is attempted
only when the dedup loop found at least one new review; and when the fetch
returns zero reviews, `process_reviews` returns `[]` immediately with no
store interaction at all (no load, no save). -/
theorem process_reviews_store_frame
    (parseIso : String → Option Int) (now days : Int) (creds : Bool)
    (resp : ApiResponse) (file : FileState) (saveOk : Bool) (nowIso : String) :
    ((process_reviews parseIso now days creds resp file saveOk
        nowIso).2.1.countP StoreOp.isSave ≤ 1)
    ∧ (get_recent_reviews parseIso now days creds resp = Except.ok [] →
        process_reviews parseIso now days creds resp file saveOk nowIso
          = ([], [], file))
    ∧ (∀ ids lr, StoreOp.save ids lr ∈
          (process_reviews parseIso now days creds resp file saveOk
            nowIso).2.1 →
        ∃ R data, get_recent_reviews parseIso now days creds resp
            = Except.ok R
          ∧ load_processed_reviews file = Except.ok data
          ∧ (filter_new R data.review_ids).1 ≠ []) := by
  cases hg : get_recent_reviews parseIso now days creds resp with
  | error e =>
      simp [process_reviews, hg]
  | ok R =>
      by_cases hR : R = []
      · subst hR
        simp [process_reviews, hg]
      · cases hl : load_processed_reviews file with
        | error e' =>
            simp only [process_reviews, hg, hl, if_neg hR]
            refine ⟨by simp [List.countP_cons, StoreOp.isSave], ?_, ?_⟩
            · intro hem
              exact absurd (Except.ok.inj hem) hR
            · intro ids lr hmem
              simp at hmem
        | ok data =>
            by_cases hnew : (filter_new R data.review_ids).1 = []
            · simp only [process_reviews, hg, hl, if_neg hR, if_pos hnew]
              refine ⟨by simp [List.countP_cons, StoreOp.isSave], ?_, ?_⟩
              · intro hem
                exact absurd (Except.ok.inj hem) hR
              · intro ids lr hmem
                simp at hmem
            · cases saveOk with
              | true =>
                  simp only [process_reviews, hg, hl, if_neg hR, if_neg hnew,
                    save_processed_reviews, if_pos rfl]
                  refine ⟨by simp [List.countP_cons, StoreOp.isSave], ?_, ?_⟩
                  · intro hem
                    exact absurd (Except.ok.inj hem) hR
                  · intro ids lr _
                    exact ⟨R, data, rfl, rfl, hnew⟩
              | false =>
                  simp only [process_reviews, hg, hl, if_neg hR, if_neg hnew,
                    save_processed_reviews]
                  refine ⟨by simp [List.countP_cons, StoreOp.isSave], ?_, ?_⟩
                  · intro hem
                    exact absurd (Except.ok.inj hem) hR
                  · intro ids lr _
                    exact ⟨R, data, rfl, rfl, hnew⟩

/-- Witness for C7: a concrete empty-fetch run — the response carries one
item but its date fails to parse, so the fetch returns zero reviews and the
run performs no store operation. -/
theorem process_reviews_store_frame_witness :
    ((process_reviews pIso0 100 1 true (ApiResponse.ok []) FileState.missing
        true "t").2.1.countP StoreOp.isSave ≤ 1)
    ∧ (get_recent_reviews pIso0 100 1 true (ApiResponse.ok [])
          = Except.ok [] →
        process_reviews pIso0 100 1 true (ApiResponse.ok []) FileState.missing
          true "t" = ([], [], FileState.missing))
    ∧ (∀ ids lr, StoreOp.save ids lr ∈
          (process_reviews pIso0 100 1 true (ApiResponse.ok [])
            FileState.missing true "t").2.1 →
        ∃ R data, get_recent_reviews pIso0 100 1 true (ApiResponse.ok [])
            = Except.ok R
          ∧ load_processed_reviews FileState.missing = Except.ok data
          ∧ (filter_new R data.review_ids).1 ≠ []) :=
  process_reviews_store_frame pIso0 100 1 true (ApiResponse.ok [])
    FileState.missing true "t"

/-- C10: every review returned by `process_reviews` has an id outside the
prior seen set, the returned ids are pairwise distinct, the returned list
is a subsequence of the fetched list (fetch order preserved), and each
returned review is the first element of the fetched list carrying its id —
so a repeated previously-unseen id is returned only once, at its first
occurrence. -/
theorem process_reviews_distinct_ids
    (parseIso : String → Option Int) (now days : Int) (creds : Bool)
    (resp : ApiResponse) (R : List Review) (S : List String)
    (lr : Option String) (saveOk : Bool) (nowIso : String)
    (hfetch : get_recent_reviews parseIso now days creds resp = Except.ok R) :
    (((process_reviews parseIso now days creds resp (FileState.valid S lr)
        saveOk nowIso).1.map Review.id).Nodup)
    ∧ List.Sublist (process_reviews parseIso now days creds resp
        (FileState.valid S lr) saveOk nowIso).1 R
    ∧ ∀ r' ∈ (process_reviews parseIso now days creds resp
        (FileState.valid S lr) saveOk nowIso).1,
        r'.id ∉ S
        ∧ ∃ pre post, R = pre ++ r' :: post ∧ ∀ p ∈ pre, p.id ≠ r'.id := by
  simp only [process_reviews, hfetch, load_processed_reviews]
  by_cases hR : R = []
  · subst hR
    simp
  · rw [if_neg hR]
    by_cases hnew : (filter_new R S).1 = []
    · rw [if_pos hnew]
      refine ⟨?_, ?_, ?_⟩
      · rw [hnew]; simp
      · rw [hnew]; exact List.nil_sublist R
      · intro r' hr'
        rw [hnew] at hr'
        simp at hr'
    · rw [if_neg hnew]
      cases saveOk with
      | true =>
          simp only [save_processed_reviews, if_pos rfl]
          refine ⟨filter_new_fst_nodup R S, filter_new_fst_sublist R S, ?_⟩
          intro r' hr'
          exact ⟨filter_new_fst_id_not_mem R S r' hr',
            filter_new_first_occurrence R S r' hr'⟩
      | false =>
          simp only [save_processed_reviews]
          simp

/-- Witness for C10: fetching `[item0, item0]` against the empty seen set —
the returned list is `[review0]`, whose properties instantiate the theorem. -/
theorem process_reviews_distinct_ids_witness :
    (((process_reviews pIso0 100 1 true (ApiResponse.ok [item0, item0])
        (FileState.valid [] none) true "t").1.map Review.id).Nodup)
    ∧ List.Sublist (process_reviews pIso0 100 1 true
        (ApiResponse.ok [item0, item0]) (FileState.valid [] none) true
        "t").1 [review0, review0]
    ∧ ∀ r' ∈ (process_reviews pIso0 100 1 true (ApiResponse.ok [item0, item0])
        (FileState.valid [] none) true "t").1,
        r'.id ∉ ([] : List String)
        ∧ ∃ pre post, [review0, review0] = pre ++ r' :: post
          ∧ ∀ p ∈ pre, p.id ≠ r'.id :=
  process_reviews_distinct_ids pIso0 100 1 true (ApiResponse.ok [item0, item0])
    [review0, review0] [] none true "t" (by decide)

/-- C4 counterexample: `send_slack_notification` given three reviews where
the second post fails.  The claim says the first and third are attempted
and the result is partial success; in fact the loop raises `SlackError` at
the failed second post, the third review's message is never posted, and the
call is a total failure from that point. -/
theorem send_slack_notification_abort_counterexample :
    (send_slack_notification postOkExceptSecond
        [review0, review2, review3]).posted
      = [format_slack_text review0, format_slack_text review2]
    ∧ (send_slack_notification postOkExceptSecond
        [review0, review2, review3]).result
      = Except.error ⟨"Failed to send notification"⟩
    ∧ format_slack_text review3 ∉
        (send_slack_notification postOkExceptSecond
          [review0, review2, review3]).posted := by
  decide

/-- Behaviour of the notification loop from an arbitrary post index:
all-success posts every message in order; the first failed post (at
relative index `k`) stops the loop with `SlackError` after posting exactly
the messages up to and including the failing one. -/
theorem send_loop_spec (p : Nat → Bool) :
    ∀ (rs : List Review) (i : Nat),
      ((send_loop p i rs).result = Except.ok () →
        (send_loop p i rs).posted = rs.map format_slack_text
        ∧ ∀ k, k < rs.length → p (i + k) = true)
      ∧ (∀ e, (send_loop p i rs).result = Except.error e →
          ∃ k, k < rs.length ∧ p (i + k) = false
            ∧ (∀ j, j < k → p (i + j) = true)
            ∧ (send_loop p i rs).posted
                = (rs.map format_slack_text).take (k + 1)) := by
  intro rs
  induction rs with
  | nil =>
      intro i
      constructor
      · intro _
        exact ⟨rfl, fun k hk => absurd hk (Nat.not_lt_zero k)⟩
      · intro e he
        simp [send_loop] at he
  | cons r rs ih =>
      intro i
      by_cases hp : p i = true
      · constructor
        · intro hok
          simp only [send_loop, if_pos hp] at hok ⊢
          obtain ⟨hpost, hall⟩ := (ih (i + 1)).1 hok
          refine ⟨by rw [hpost, List.map_cons], ?_⟩
          intro k hk
          cases k with
          | zero => simpa using hp
          | succ k' =>
              have hk' : k' < rs.length := by
                simpa [Nat.succ_lt_succ_iff] using hk
              have := hall k' hk'
              rwa [show i + 1 + k' = i + (k' + 1) by omega] at this
        · intro e he
          simp only [send_loop, if_pos hp] at he ⊢
          obtain ⟨k, hk, hfail, hbefore, hpost⟩ := (ih (i + 1)).2 e he
          refine ⟨k + 1, by simpa [Nat.succ_lt_succ_iff] using hk, ?_, ?_, ?_⟩
          · rwa [show i + (k + 1) = i + 1 + k by omega]
          · intro j hj
            cases j with
            | zero => simpa using hp
            | succ j' =>
                have hj' : j' < k := by omega
                have := hbefore j' hj'
                rwa [show i + 1 + j' = i + (j' + 1) by omega] at this
          · rw [hpost, List.map_cons, List.take_succ_cons]
      · have hp' : p i = false := by
          cases hpv : p i
          · rfl
          · exact absurd hpv hp
        constructor
        · intro hok
          simp only [send_loop, if_neg hp] at hok
          simp at hok
        · intro e _
          simp only [send_loop, if_neg hp]
          refine ⟨0, Nat.succ_pos _, by simpa using hp', ?_, by simp⟩
          intro j hj
          exact absurd hj (Nat.not_lt_zero j)

/-- C4 amended: delivery is not isolated per review — the loop posts
messages in fetch order until the first failed post; a failure at post `k`
raises `SlackError`, exactly the messages of reviews `0..k` have been
posted, and the reviews after the failing one are never attempted.  Only a
run with no failed post posts every message and returns success. -/
theorem send_slack_notification_amended (p : Nat → Bool) (rs : List Review) :
    ((send_slack_notification p rs).result = Except.ok () →
      (send_slack_notification p rs).posted = rs.map format_slack_text)
    ∧ ∀ e, (send_slack_notification p rs).result = Except.error e →
        ∃ k, k < rs.length ∧ p k = false ∧ (∀ j, j < k → p j = true)
          ∧ (send_slack_notification p rs).posted
              = (rs.map format_slack_text).take (k + 1) := by
  by_cases hrs : rs = []
  · subst hrs
    constructor
    · intro _; rfl
    · intro e he
      simp [send_slack_notification] at he
  · have hspec := send_loop_spec p rs 0
    constructor
    · intro hok
      rw [send_slack_notification, if_neg hrs] at hok ⊢
      exact (hspec.1 hok).1
    · intro e he
      rw [send_slack_notification, if_neg hrs] at he ⊢
      obtain ⟨k, hk, hfail, hbefore, hpost⟩ := hspec.2 e he
      refine ⟨k, hk, by simpa using hfail, ?_, hpost⟩
      intro j hj
      simpa using hbefore j hj

/-- Witness for C4 (amended): the concrete failing run of the
counterexample instantiates the amended theorem. -/
theorem send_slack_notification_amended_witness :
    ((send_slack_notification postOkExceptSecond
        [review0, review2, review3]).result = Except.ok () →
      (send_slack_notification postOkExceptSecond
        [review0, review2, review3]).posted
        = [review0, review2, review3].map format_slack_text)
    ∧ ∀ e, (send_slack_notification postOkExceptSecond
          [review0, review2, review3]).result = Except.error e →
        ∃ k, k < [review0, review2, review3].length
          ∧ postOkExceptSecond k = false
          ∧ (∀ j, j < k → postOkExceptSecond j = true)
          ∧ (send_slack_notification postOkExceptSecond
              [review0, review2, review3]).posted
              = ([review0, review2, review3].map format_slack_text).take
                  (k + 1) :=
  send_slack_notification_amended postOkExceptSecond [review0, review2, review3]

/-- C5 counterexample: `send_slack_notification` applies no length cap —
the review with a 5000-character body renders to a message strictly longer
than 4000 characters, so the claimed bound (and hence the claimed trailing
ellipsis) fails. -/
theorem format_slack_text_exceeds_cap :
    reviewLong.body.length = 5000
    ∧ 4000 < (format_slack_text reviewLong).length := by
  have hb : reviewLong.body.length = 5000 := by
    show longBody.length = 5000
    rw [longBody, String.mk_length, List.length_replicate]
  have hle : reviewLong.body.length ≤ (format_slack_text reviewLong).length := by
    simp only [format_slack_text, String.length_append]
    omega
  exact ⟨hb, by omega⟩

/-- C5 amended: the notifier renders the review body verbatim with no
destination length cap and no truncation — the rendered message is always
at least as long as the body (so a 5000-character body exceeds 4000
characters).  `utils.truncate_string` implements ellipsis truncation but
is never called in message rendering. -/
theorem format_slack_text_uncapped (r : Review) :
    r.body.length ≤ (format_slack_text r).length := by
  simp only [format_slack_text, String.length_append]
  omega

/-- C9: the fetch either fails as a whole with `APIError`, or every
returned review comes from normalizing a response item (missing
title/body/rating become `"No title"`/`"No review text"`/`0`) and has a
`created_at` that parses and lies inside `[now - lookback, now]`; a record
whose date string fails to parse is dropped individually while the fetch
as a whole still succeeds. -/
theorem get_recent_reviews_normalization
    (parseIso : String → Option Int) (now days : Int) (creds : Bool)
    (resp : ApiResponse) :
    ((∃ e, get_recent_reviews parseIso now days creds resp = Except.error e)
      ∨ ∃ rs, get_recent_reviews parseIso now days creds resp = Except.ok rs
        ∧ ∀ r ∈ rs,
            (∃ t, parseIso r.date = some t
              ∧ now - days * 86400 ≤ t ∧ t ≤ now)
            ∧ ∃ data item, resp = ApiResponse.ok data ∧ item ∈ data
              ∧ normalize_item item = some r)
    ∧ (∀ item attrs r, item.attributes = some attrs →
        normalize_item item = some r →
        (attrs.title = none → r.title = "No title")
        ∧ (attrs.body = none → r.body = "No review text")
        ∧ (attrs.rating = none → r.rating = 0))
    ∧ (∀ data, creds = true → resp = ApiResponse.ok data →
        get_recent_reviews parseIso now days creds resp
          = Except.ok ((data.filterMap normalize_item).filter
              (in_window parseIso (now - days * 86400) now))) := by
  refine ⟨?_, ?_, ?_⟩
  · cases creds with
    | false => exact Or.inl ⟨⟨"Missing required API credentials"⟩, rfl⟩
    | true =>
        cases resp with
        | failed =>
            exact Or.inl
              ⟨⟨"Failed to fetch reviews from App Store Connect API"⟩, rfl⟩
        | noData =>
            exact Or.inl
              ⟨⟨"Invalid response format from App Store Connect API"⟩, rfl⟩
        | ok data =>
            refine Or.inr ⟨(data.filterMap normalize_item).filter
              (in_window parseIso (now - days * 86400) now), rfl, ?_⟩
            intro r hr
            have hmem := List.mem_of_mem_filter hr
            have hwin := List.of_mem_filter hr
            constructor
            · cases hpi : parseIso r.date with
              | none => simp [in_window, hpi] at hwin
              | some t =>
                  simp only [in_window, hpi, Bool.and_eq_true,
                    decide_eq_true_eq] at hwin
                  exact ⟨t, rfl, hwin.1, hwin.2⟩
            · obtain ⟨item, hitem, hni⟩ := List.mem_filterMap.mp hmem
              exact ⟨data, item, rfl, hitem, hni⟩
  · intro item attrs r ha hn
    simp only [normalize_item, ha] at hn
    obtain rfl := Option.some.inj hn
    refine ⟨?_, ?_, ?_⟩
    · intro h; simp [h]
    · intro h; simp [h]
    · intro h; simp [h]
  · intro data hc hresp
    subst hc
    subst hresp
    rfl

/-- Witness for C9: the run with one well-formed item whose date parses to
timestamp 50 inside the window `[100 - 86400, 100]`. -/
theorem get_recent_reviews_normalization_witness :
    ((∃ e, get_recent_reviews pIso0 100 1 true (ApiResponse.ok [item0])
        = Except.error e)
      ∨ ∃ rs, get_recent_reviews pIso0 100 1 true (ApiResponse.ok [item0])
          = Except.ok rs
        ∧ ∀ r ∈ rs,
            (∃ t, pIso0 r.date = some t
              ∧ 100 - 1 * 86400 ≤ t ∧ t ≤ 100)
            ∧ ∃ data item, ApiResponse.ok [item0] = ApiResponse.ok data
              ∧ item ∈ data ∧ normalize_item item = some r)
    ∧ (∀ item attrs r, item.attributes = some attrs →
        normalize_item item = some r →
        (attrs.title = none → r.title = "No title")
        ∧ (attrs.body = none → r.body = "No review text")
        ∧ (attrs.rating = none → r.rating = 0))
    ∧ (∀ data, true = true → ApiResponse.ok [item0] = ApiResponse.ok data →
        get_recent_reviews pIso0 100 1 true (ApiResponse.ok [item0])
          = Except.ok ((data.filterMap normalize_item).filter
              (in_window pIso0 (100 - 1 * 86400) 100))) :=
  get_recent_reviews_normalization pIso0 100 1 true (ApiResponse.ok [item0])

/-- C8: saving a seen set (a list of ids and a `last_run` timestamp) and
loading it back yields the same ids as a set — here even the same list —
and `last_run` verbatim. -/
theorem save_load_roundtrip (ids : List String) (lr : String)
    (file : FileState) :
    ∃ file', save_processed_reviews true ids lr file = Except.ok file'
      ∧ ∃ d, load_processed_reviews file' = Except.ok d
        ∧ (∀ x, x ∈ d.review_ids ↔ x ∈ ids) ∧ d.last_run = some lr :=
  ⟨.valid ids (some lr), rfl, ⟨ids, some lr⟩, rfl, fun _ => Iff.rfl, rfl⟩

end AppReviewMonitor
